import Mathlib

/-!
Verification of the lazyl2m proxy-manager component (src/proxy_manager.go,
with the install key handler from src/main.go).  The Go code is shallowly
embedded: pure helpers become Lean functions, the mutex-guarded manager
state becomes an explicit state record threaded through step functions, and
environment effects (filesystem, subprocess, HTTP) become explicit
parameters of each operation.
-/

namespace LazyL2M

/-! ## Go string helpers (strings.ToLower, Contains, HasPrefix/Suffix, Trim) -/

/-- Go strings.ToLower, restricted to the per-character lowering that the
asset names exercised here need. -/
def goToLower (s : String) : String := ⟨s.data.map Char.toLower⟩

/-- Go strings.Contains: substring containment. -/
def goContains (s sub : String) : Bool := decide (sub.data <:+: s.data)

/-- Go strings.HasPrefix. -/
def goStartsWith (s pre : String) : Bool := pre.data.isPrefixOf s.data

/-- Go strings.HasSuffix. -/
def goEndsWith (s suf : String) : Bool := suf.data.isSuffixOf s.data

/-- Go strings.TrimSuffix: drops the suffix when present. -/
def goDropEnd (s suf : String) : String :=
  if goEndsWith s suf then ⟨s.data.take (s.data.length - suf.data.length)⟩ else s

/-- Go strings.TrimPrefix: drops the given leading part when present. -/
def goDropStart (s pre : String) : String :=
  if goStartsWith s pre then ⟨s.data.drop pre.data.length⟩ else s

/-! ## Data model (src/models.go) -/

/-- AIProvider enumeration from models.go. -/
inductive AIProvider where
  | gemini | claude | codex | qwen | iflow | antigravity
  | vertex | kiro | githubCopilot | cursor
deriving DecidableEq, Repr

/-- LogLevel from models.go. -/
inductive LogLevel where
  | info | warn | error | debug
deriving DecidableEq, Repr

/-- LogEntry from models.go: timestamp (modelled as a Nat tick), level,
message. -/
structure LogEntry where
  timestamp : Nat
  level : LogLevel
  message : String
deriving DecidableEq, Repr

/-- AuthFile from models.go.  The expiry is an optional tick. -/
structure AuthFile where
  id : String
  name : String
  provider : AIProvider
  status : String
  email : String
  token : String := ""
  expireAt : Option Nat := none
deriving DecidableEq, Repr

/-- UsageStats from models.go.  Go ints become Int, the float64 success
rate becomes Rat (the manager only copies or zeroes it, never computes
with it), time.Time becomes a Nat tick. -/
structure UsageStats where
  totalRequests : Int := 0
  successRequests : Int := 0
  failedRequests : Int := 0
  totalTokens : Int := 0
  successRate : Rat := 0
  lastUpdated : Nat := 0
deriving DecidableEq, Repr

/-! ## Bounded log sink (AddLog, src/proxy_manager.go lines 560-573) -/

/-- maxLogEntries constant from proxy_manager.go. -/
def maxLogEntries : Nat := 1000

/-- AddLog from proxy_manager.go: append the entry, then keep only the last
maxLogEntries entries (Go slice logEntries[len-maxLogEntries:]). -/
def addLog (logs : List LogEntry) (e : LogEntry) : List LogEntry :=
  let l := logs ++ [e]
  if l.length > maxLogEntries then l.drop (l.length - maxLogEntries) else l

/-! ## Process lifecycle state machine (Start / Stop / exit waiter) -/

/-- Managerial state relevant to the lifecycle claims: the ProxyStatus
Running flag and port, whether a process handle with a pending exit waiter
exists, the lastError string, and the log sink. -/
structure MState where
  running : Bool
  port : Nat
  hasProcess : Bool
  lastError : String
  logs : List LogEntry
deriving DecidableEq, Repr

/-- Initial manager state from NewProxyManager: not running, empty logs. -/
def initState (port : Nat) : MState :=
  { running := false, port := port, hasProcess := false
    lastError := "", logs := [] }

/-- Lifecycle events.  Each carries the clock tick used for log timestamps
and the environment outcomes the Go code observes: whether the binary is
installed (os.Stat), whether cmd.Start() succeeds, whether the post-sleep
liveness probe (Signal 0) succeeds, whether the process exits before the
Stop timeout, and which orphan pids the port sweep finds. -/
inductive Event where
  | start (t : Nat) (installed spawnOk probeOk : Bool) (errMsg : String)
  | stop (t : Nat) (graceful : Bool) (orphans : List Nat)
  | procExit (t : Nat) (exitErr : Bool) (errMsg : String)
deriving DecidableEq, Repr

/-- Observable outcome of one lifecycle step. -/
inductive Outcome where
  | startOk | startFailAlready | startFailNotInstalled
  | startFailSpawn | startFailProbe
  | stopOk | stopFailNotRunning
  | exited | exitNoop
deriving DecidableEq, Repr

/-- Process-affecting actions a step performs: spawning a subprocess,
signalling the managed process, or killing an orphan pid found on the
port. -/
inductive Action where
  | spawn | sigterm | sigkill | killPid (pid : Nat)
deriving DecidableEq, Repr

/-- Result of one lifecycle step. -/
structure StepResult where
  state : MState
  outcome : Outcome
  actions : List Action
deriving DecidableEq, Repr

/-- Start from proxy_manager.go lines 181-272.  Guards: AlreadyRunning,
NotInstalled.  Then it logs, clears lastError, spawns; on spawn error it
records the error; otherwise the exit waiter is attached (hasProcess) and
the liveness probe decides between success (running := true) and
StartFailed. -/
def startStep (s : MState) (t : Nat) (installed spawnOk probeOk : Bool)
    (errMsg : String) : StepResult :=
  if s.running then
    { state := s, outcome := .startFailAlready, actions := [] }
  else if !installed then
    { state := s, outcome := .startFailNotInstalled, actions := [] }
  else
    let s1 : MState :=
      { s with
        logs := addLog s.logs
          ⟨t, .info, "Starting proxy server on port " ++ toString s.port⟩
        lastError := "" }
    if !spawnOk then
      { state :=
          { s1 with lastError := errMsg
                    logs := addLog s1.logs
                      ⟨t, .error, "Failed to start proxy: " ++ errMsg⟩ }
        outcome := .startFailSpawn, actions := [.spawn] }
    else
      let s2 : MState := { s1 with hasProcess := true }
      if probeOk then
        { state :=
            { s2 with running := true
                      logs := addLog s2.logs
                        ⟨t, .info, "Proxy server started successfully"⟩ }
          outcome := .startOk, actions := [.spawn] }
      else
        { state := { s2 with lastError := "Process failed to start" }
          outcome := .startFailProbe, actions := [.spawn] }

/-- Stop from proxy_manager.go lines 275-313.  Guard: NotRunning.  Then it
logs, SIGTERMs the process when a handle exists, force-kills on timeout,
sweeps orphan pids on the port, and clears the running flag. -/
def stopStep (s : MState) (t : Nat) (graceful : Bool) (orphans : List Nat) :
    StepResult :=
  if !s.running then
    { state := s, outcome := .stopFailNotRunning, actions := [] }
  else
    let s1 : MState :=
      { s with logs := addLog s.logs ⟨t, .info, "Stopping proxy server"⟩ }
    let sigRes : MState × List Action :=
      if s1.hasProcess then
        if graceful then
          ({ s1 with hasProcess := false }, [Action.sigterm])
        else
          ({ s1 with hasProcess := false
                     logs := addLog s1.logs
                       ⟨t, .warn, "Force killed proxy process"⟩ },
           [Action.sigterm, Action.sigkill])
      else (s1, [])
    let s2 := sigRes.1
    { state :=
        { s2 with running := false
                  logs := addLog s2.logs ⟨t, .info, "Proxy server stopped"⟩ }
      outcome := .stopOk
      actions := sigRes.2 ++ orphans.map Action.killPid }

/-- Exit-waiter body from proxy_manager.go lines 242-256, taken as a step of
the same transition system: when a process handle is pending, mark
running := false, clear the handle, and log the exit cause. -/
def exitStep (s : MState) (t : Nat) (exitErr : Bool) (errMsg : String) :
    StepResult :=
  if s.hasProcess then
    if exitErr then
      { state :=
          { s with running := false, hasProcess := false, lastError := errMsg
                   logs := addLog s.logs
                     ⟨t, .error, "Proxy exited with error: " ++ errMsg⟩ }
        outcome := .exited, actions := [] }
    else
      { state :=
          { s with running := false, hasProcess := false
                   logs := addLog s.logs ⟨t, .info, "Proxy process exited"⟩ }
        outcome := .exited, actions := [] }
  else
    { state := s, outcome := .exitNoop, actions := [] }

/-- One step of the lifecycle transition system. -/
def step (s : MState) : Event → StepResult
  | .start t installed spawnOk probeOk errMsg =>
      startStep s t installed spawnOk probeOk errMsg
  | .stop t graceful orphans => stopStep s t graceful orphans
  | .procExit t exitErr errMsg => exitStep s t exitErr errMsg

/-- Run a sequence of lifecycle events. -/
def run (s : MState) : List Event → MState
  | [] => s
  | e :: es => run (step s e).state es

/-- Outcome trace of a sequence of lifecycle events. -/
def trace (s : MState) : List Event → List Outcome
  | [] => []
  | e :: es => (step s e).outcome :: trace (step s e).state es

/-- Outcomes that the specification counts as decisive for the running
flag: a successful Start, a successful Stop, and an unsolicited process
exit. -/
def decisive : Outcome → Bool
  | .startOk => true
  | .stopOk => true
  | .exited => true
  | _ => false

/-- Spec-side predicate, transcribing the claim wording on the reversed
(most-recent-first) outcome trace: the manager should be running exactly
when the most recent decisive outcome is a successful Start — that is, the
last successful transition was a Start and no unsolicited exit (and no
successful Stop) happened since. -/
def lastDecisiveIsStart : List Outcome → Bool
  | [] => false
  | .startOk :: _ => true
  | .stopOk :: _ => false
  | .exited :: _ => false
  | _ :: os => lastDecisiveIsStart os

/-! ## Telemetry fetchers (FetchAuthFiles, FetchUsageStats, scanAuthDirectory,
parseAuthFileName) -/

/-- Result of reading the body of a 200 HTTP response: io.ReadAll may fail,
json.Unmarshal may fail, or a value of the expected shape is produced. -/
inductive BodyResult (α : Type) where
  | readError
  | parseError
  | ok (value : α)
deriving DecidableEq, Repr

/-- Outcome of an HTTP round trip as the Go code observes it: a transport
error from client.Do, or a response with a status code and a body. -/
inductive HttpResult (α : Type) where
  | transportError
  | response (status : Nat) (body : BodyResult α)
deriving DecidableEq, Repr

/-- Go errors the telemetry fetchers can return to their caller. -/
inductive FetchError where
  | readBodyFailed
  | unmarshalFailed
deriving DecidableEq, Repr

/-- Directory entry as seen by os.ReadDir plus whether os.ReadFile on it
succeeds. -/
structure DirEntry where
  name : String
  isDir : Bool
  readOk : Bool
deriving DecidableEq, Repr

/-- Provider-prefix table from parseAuthFileName, in source listing order
(the Go original ranges over a map; the spec fixes first-listed-wins as the
deterministic reading). -/
def providerTable : List (String × AIProvider) :=
  [("gemini-cli", .gemini), ("gemini", .gemini), ("claude", .claude),
   ("codex", .codex), ("qwen", .qwen), ("iflow", .iflow),
   ("antigravity", .antigravity), ("vertex", .vertex), ("kiro", .kiro),
   ("github-copilot", .githubCopilot), ("copilot", .githubCopilot),
   ("cursor", .cursor)]

/-- Loop body of parseAuthFileName: first table entry whose prefix followed
by a dash starts the trimmed name wins. -/
def lookupProvider (name : String) : List (String × AIProvider) →
    Option (AIProvider × String)
  | [] => none
  | (pre, prov) :: rest =>
      if goStartsWith name (pre ++ "-") then
        some (prov, goDropStart name (pre ++ "-"))
      else lookupProvider name rest

/-- parseAuthFileName from proxy_manager.go lines 427-454: trim the .json
suffix, match the provider-prefix table, default to ProviderGemini with the
whole trimmed name as the email. -/
def parseAuthFileName (filename : String) : AIProvider × String :=
  let name := goDropEnd filename ".json"
  match lookupProvider name providerTable with
  | some r => r
  | none => (.gemini, name)

/-- scanAuthDirectory from proxy_manager.go lines 386-424: keep readable
non-directory .json entries, derive provider and email from the filename,
and build an AuthFile with ID the filename, Name and Email the parsed
email, and status active. -/
def scanAuthDirectory : List DirEntry → List AuthFile
  | [] => []
  | entry :: rest =>
      if entry.isDir || !goEndsWith entry.name ".json" then
        scanAuthDirectory rest
      else if !entry.readOk then
        scanAuthDirectory rest
      else
        let pe := parseAuthFileName entry.name
        { id := entry.name, name := pe.2, provider := pe.1
          status := "active", email := pe.2 } :: scanAuthDirectory rest

/-- Telemetry-relevant manager state: the running flag, the cached auth
files and usage snapshot, and the log sink. -/
structure TState where
  running : Bool
  authFiles : List AuthFile
  usageStats : UsageStats
  logs : List LogEntry
deriving DecidableEq, Repr

/-- FetchAuthFiles from proxy_manager.go lines 340-383.  Not running: scan
the auth directory.  Transport error or non-200: scan the auth directory.
200 response: a body read error or unmarshal error is returned to the
caller; otherwise the cached list is replaced wholesale and a debug line is
logged. -/
def fetchAuthFiles (st : TState) (dir : List DirEntry)
    (resp : HttpResult (List AuthFile)) (t : Nat) :
    TState × Except FetchError Unit :=
  if !st.running then
    ({ st with authFiles := scanAuthDirectory dir }, .ok ())
  else
    match resp with
    | .transportError =>
        ({ st with authFiles := scanAuthDirectory dir }, .ok ())
    | .response status body =>
        if status ≠ 200 then
          ({ st with authFiles := scanAuthDirectory dir }, .ok ())
        else
          match body with
          | .readError => (st, .error .readBodyFailed)
          | .parseError => (st, .error .unmarshalFailed)
          | .ok files =>
              ({ st with authFiles := files
                         logs := addLog st.logs
                           ⟨t, .debug,
                            "Fetched " ++ toString files.length ++
                              " auth files from API"⟩ }, .ok ())

/-- FetchUsageStats from proxy_manager.go lines 457-500.  Not running: the
snapshot is replaced by a zero-valued snapshot with a fresh timestamp.
Transport error or non-200: keep the previous numeric fields and refresh
only the timestamp.  200 response: read/parse errors are returned to the
caller; otherwise the snapshot is replaced and stamped. -/
def fetchUsageStats (st : TState) (resp : HttpResult UsageStats) (t : Nat) :
    TState × Except FetchError Unit :=
  if !st.running then
    ({ st with usageStats := { lastUpdated := t } }, .ok ())
  else
    match resp with
    | .transportError =>
        ({ st with usageStats := { st.usageStats with lastUpdated := t } },
         .ok ())
    | .response status body =>
        if status ≠ 200 then
          ({ st with usageStats := { st.usageStats with lastUpdated := t } },
           .ok ())
        else
          match body with
          | .readError => (st, .error .readBodyFailed)
          | .parseError => (st, .error .unmarshalFailed)
          | .ok stats =>
              ({ st with usageStats := { stats with lastUpdated := t }
                         logs := addLog st.logs
                           ⟨t, .debug, "Updated usage statistics"⟩ }, .ok ())

/-! ## Release resolver and installer (DownloadAndInstallBinary,
findCompatibleAsset) -/

/-- assetInfo from the GitHub release JSON. -/
structure AssetInfo where
  name : String
  downloadURL : String
deriving DecidableEq, Repr

/-- releaseInfo from the GitHub release JSON. -/
structure ReleaseInfo where
  tagName : String
  assets : List AssetInfo
deriving DecidableEq, Repr

/-- Architecture normalisation from findCompatibleAsset; amd64 and arm64 map
to themselves and anything else passes through. -/
def archFor (goarch : String) : String :=
  if goarch = "amd64" then "amd64"
  else if goarch = "arm64" then "arm64"
  else goarch

/-- Skip-pattern list from findCompatibleAsset: a base list, plus linux when
the platform is not linux and darwin when it is not darwin. -/
def skipPatterns (platform : String) : List String :=
  let base := ["windows", "linux", "checksum", ".sha256", ".md5"]
  let base := if platform ≠ "linux" then base ++ ["linux"] else base
  if platform ≠ "darwin" then base ++ ["darwin"] else base

/-- Skip test for one asset name (already lower-cased): some skip pattern
occurs in the name but not in the target pattern. -/
def shouldSkipAsset (skips : List String) (target name : String) : Bool :=
  skips.any fun sk => goContains name sk && !goContains target sk

/-- Loop of findCompatibleAsset: walk the asset list in order, skip
non-matching platforms, return the first asset whose lower-cased name
contains the target pattern. -/
def findAssetLoop (skips : List String) (target : String) :
    List AssetInfo → Option AssetInfo
  | [] => none
  | a :: rest =>
      let name := goToLower a.name
      if shouldSkipAsset skips target name then findAssetLoop skips target rest
      else if goContains name target then some a
      else findAssetLoop skips target rest

/-- findCompatibleAsset from proxy_manager.go lines 748-793. -/
def findCompatibleAsset (goos goarch : String) (release : ReleaseInfo) :
    Option AssetInfo :=
  let target := goos ++ "_" ++ archFor goarch
  findAssetLoop (skipPatterns goos) target release.assets

/-- Acceptance predicate equivalent to one iteration of the
findCompatibleAsset loop deciding to return the asset. -/
def acceptsAsset (skips : List String) (target : String) (a : AssetInfo) :
    Bool :=
  !shouldSkipAsset skips target (goToLower a.name) &&
    goContains (goToLower a.name) target

/-- Install errors DownloadAndInstallBinary can return. -/
inductive InstallError where
  | fetchReleaseFailed (msg : String)
  | noCompatibleAsset (goos goarch : String)
  | downloadFailed (msg : String)
  | extractFailed (msg : String)
deriving DecidableEq, Repr

/-- Externally observable install actions; fetchRelease marks that the
operation really started doing install work. -/
inductive InstallAction where
  | fetchRelease
  | download (url : String)
  | extract (assetName : String)
deriving DecidableEq, Repr

/-- Install-relevant manager state. -/
structure IState where
  isDownloading : Bool
  downloadProgress : Rat
  lastError : String
  logs : List LogEntry
deriving DecidableEq, Repr

/-- Environment outcomes for one install run: the release fetch, the asset
download, and the extract/install step. -/
structure InstallEnv where
  releaseResp : Except String ReleaseInfo
  downloadResp : Except String Unit
  extractResp : Except String Unit
deriving Repr

/-- Result of one install invocation. -/
structure InstallResult where
  state : IState
  result : Except InstallError Unit
  actions : List InstallAction
deriving Repr

/-- DownloadAndInstallBinary from proxy_manager.go lines 633-704.  Note the
function sets isDownloading at entry without checking it: there is no
in-function single-flight guard.  Progress milestones: 0, 0.1 after release
metadata, 0.6 after bytes received, 0.7 after download confirmed, 1.0 after
install.  Every failure records lastError, logs, and clears isDownloading
(the deferred reset). -/
def downloadAndInstallBinary (goos goarch : String) (s : IState)
    (env : InstallEnv) (t : Nat) : InstallResult :=
  let s0 : IState :=
    { s with isDownloading := true, downloadProgress := 0, lastError := "" }
  let s0 : IState :=
    { s0 with
      logs := addLog s0.logs ⟨t, .info, "Starting CLIProxyAPI download..."⟩ }
  match env.releaseResp with
  | .error msg =>
      { state :=
          { s0 with lastError := msg, isDownloading := false
                    logs := addLog s0.logs
                      ⟨t, .error, "Failed to fetch release info: " ++ msg⟩ }
        result := .error (.fetchReleaseFailed msg)
        actions := [.fetchRelease] }
  | .ok release =>
      let s1 : IState := { s0 with downloadProgress := (1 : Rat) / 10 }
      match findCompatibleAsset goos goarch release with
      | none =>
          let msg := "no compatible binary found for " ++ goos ++ "/" ++ goarch
          { state :=
              { s1 with lastError := msg, isDownloading := false
                        logs := addLog s1.logs ⟨t, .error, msg⟩ }
            result := .error (.noCompatibleAsset goos goarch)
            actions := [.fetchRelease] }
      | some asset =>
          let s2 : IState :=
            { s1 with
              logs := addLog s1.logs ⟨t, .info, "Found asset: " ++ asset.name⟩ }
          match env.downloadResp with
          | .error msg =>
              { state :=
                  { s2 with lastError := msg, isDownloading := false
                            logs := addLog s2.logs
                              ⟨t, .error, "Failed to download: " ++ msg⟩ }
                result := .error (.downloadFailed msg)
                actions := [.fetchRelease, .download asset.downloadURL] }
          | .ok () =>
              let s3 : IState := { s2 with downloadProgress := (6 : Rat) / 10 }
              let s3 : IState := { s3 with downloadProgress := (7 : Rat) / 10 }
              match env.extractResp with
              | .error msg =>
                  { state :=
                      { s3 with lastError := msg, isDownloading := false
                                logs := addLog s3.logs
                                  ⟨t, .error, "Failed to install: " ++ msg⟩ }
                    result := .error (.extractFailed msg)
                    actions := [.fetchRelease, .download asset.downloadURL,
                                .extract asset.name] }
              | .ok () =>
                  { state :=
                      { s3 with downloadProgress := 1, isDownloading := false
                                logs := addLog s3.logs
                                  ⟨t, .info,
                                   "CLIProxyAPI installed successfully!"⟩ }
                    result := .ok ()
                    actions := [.fetchRelease, .download asset.downloadURL,
                                .extract asset.name] }

/-- Install key handler from main.go (case 'i'/'I'): skip when the binary is
already installed, skip when a download is already in progress, otherwise
invoke DownloadAndInstallBinary. -/
def installKeyHandler (binaryInstalled : Bool) (goos goarch : String)
    (s : IState) (env : InstallEnv) (t : Nat) : IState × List InstallAction :=
  if binaryInstalled then
    ({ s with
       logs := addLog s.logs ⟨t, .info, "CLIProxyAPI is already installed"⟩ },
     [])
  else if s.isDownloading then
    ({ s with
       logs := addLog s.logs ⟨t, .info, "Download already in progress..."⟩ },
     [])
  else
    let s1 : IState :=
      { s with
        logs := addLog s.logs
            ⟨t, .info, "Starting CLIProxyAPI installation..."⟩ }
    let r := downloadAndInstallBinary goos goarch s1 env t
    (r.state, r.actions)

/-! ## Lemmas about the lifecycle transition system -/

/-- A successful Start leaves the machine running. -/
theorem step_startOk_running (s : MState) (e : Event)
    (h : (step s e).outcome = Outcome.startOk) :
    (step s e).state.running = true := by
  cases e with
  | start t installed spawnOk probeOk errMsg =>
      simp only [step, startStep] at h ⊢
      split_ifs at h ⊢ <;> simp_all
  | stop t graceful orphans =>
      simp only [step, stopStep] at h
      split_ifs at h <;> simp_all
  | procExit t exitErr errMsg =>
      simp only [step, exitStep] at h
      split_ifs at h <;> simp_all

/-- A successful Stop leaves the machine not running. -/
theorem step_stopOk_not_running (s : MState) (e : Event)
    (h : (step s e).outcome = Outcome.stopOk) :
    (step s e).state.running = false := by
  cases e with
  | start t installed spawnOk probeOk errMsg =>
      simp only [step, startStep] at h
      split_ifs at h <;> simp_all
  | stop t graceful orphans =>
      simp only [step, stopStep] at h ⊢
      split_ifs at h ⊢ <;> simp_all
  | procExit t exitErr errMsg =>
      simp only [step, exitStep] at h
      split_ifs at h <;> simp_all

/-- An unsolicited process exit leaves the machine not running. -/
theorem step_exited_not_running (s : MState) (e : Event)
    (h : (step s e).outcome = Outcome.exited) :
    (step s e).state.running = false := by
  cases e with
  | start t installed spawnOk probeOk errMsg =>
      simp only [step, startStep] at h
      split_ifs at h <;> simp_all
  | stop t graceful orphans =>
      simp only [step, stopStep] at h
      split_ifs at h <;> simp_all
  | procExit t exitErr errMsg =>
      simp only [step, exitStep] at h ⊢
      split_ifs at h ⊢ <;> simp_all

/-- A non-decisive outcome leaves the running flag unchanged. -/
theorem step_nondecisive_running (s : MState) (e : Event)
    (h : decisive (step s e).outcome = false) :
    (step s e).state.running = s.running := by
  cases e with
  | start t installed spawnOk probeOk errMsg =>
      simp only [step, startStep] at h ⊢
      split_ifs at h ⊢ <;> simp_all [decisive]
  | stop t graceful orphans =>
      simp only [step, stopStep] at h ⊢
      split_ifs at h ⊢ <;> simp_all [decisive]
  | procExit t exitErr errMsg =>
      simp only [step, exitStep] at h ⊢
      split_ifs at h ⊢ <;> simp_all [decisive]

/-- Appending an older outcome at the far end of the most-recent-first list
changes lastDecisiveIsStart only when no decisive outcome was present. -/
theorem lastDecisiveIsStart_append (l : List Outcome) (o : Outcome) :
    lastDecisiveIsStart (l ++ [o]) =
      if l.any decisive then lastDecisiveIsStart l
      else lastDecisiveIsStart [o] := by
  induction l with
  | nil => simp
  | cons a l ih =>
      cases a <;> simp [lastDecisiveIsStart, decisive, ih]

/-- Without any decisive outcome the spec predicate is false. -/
theorem lastDecisiveIsStart_of_no_decisive (l : List Outcome)
    (h : l.any decisive = false) : lastDecisiveIsStart l = false := by
  induction l with
  | nil => simp [lastDecisiveIsStart]
  | cons a l ih =>
      simp only [List.any_cons, Bool.or_eq_false_iff] at h
      cases a <;> simp_all [lastDecisiveIsStart, decisive]

/-- Generalised running-flag characterisation: after any event sequence the
running flag equals the spec predicate over the decisive outcomes, falling
back to the initial flag when no decisive outcome occurred. -/
theorem run_running_characterisation (es : List Event) : ∀ s : MState,
    (run s es).running =
      if (trace s es).reverse.any decisive then
        lastDecisiveIsStart (trace s es).reverse
      else s.running := by
  induction es with
  | nil => intro s; simp [run, trace]
  | cons e rest ih =>
      intro s
      simp only [run, trace, List.reverse_cons]
      rw [lastDecisiveIsStart_append]
      rw [List.any_append]
      rw [ih (step s e).state]
      by_cases hR : (trace (step s e).state rest).reverse.any decisive = true
      · simp [hR]
      · simp only [Bool.not_eq_true] at hR
        by_cases hd : decisive (step s e).outcome = true
        · simp only [hR, hd, List.any_cons, List.any_nil, Bool.false_or,
            Bool.or_false, if_true, if_false, Bool.false_eq_true]
          cases ho : (step s e).outcome <;> simp [decisive, ho] at hd ⊢
          · exact step_startOk_running s e ho
          · exact step_stopOk_not_running s e ho
          · exact step_exited_not_running s e ho
        · simp only [Bool.not_eq_true] at hd
          simp only [hR, hd, List.any_cons, List.any_nil, Bool.false_or,
            Bool.or_false, if_false, Bool.false_eq_true]
          exact step_nondecisive_running s e hd

/-- C1: after any sequence of Start calls, Stop calls and process-exit
events, the running flag is true exactly when the most recent decisive
outcome in the trace is a successful Start — i.e. the last successful
transition was a Start and no unsolicited exit (nor successful Stop)
happened since. -/
theorem running_iff_last_transition_start (port : Nat) (es : List Event) :
    (run (initState port) es).running =
      lastDecisiveIsStart (trace (initState port) es).reverse := by
  rw [run_running_characterisation es (initState port)]
  by_cases h : (trace (initState port) es).reverse.any decisive = true
  · simp [h]
  · simp only [Bool.not_eq_true] at h
    rw [lastDecisiveIsStart_of_no_decisive _ h]
    simp [h, initState]

/-- C2: Start on a running manager fails with AlreadyRunning, performs no
spawn, and leaves the whole manager state (flags, lastError, logs)
unchanged. -/
theorem start_while_running_rejected (s : MState) (t : Nat)
    (installed spawnOk probeOk : Bool) (errMsg : String)
    (h : s.running = true) :
    step s (.start t installed spawnOk probeOk errMsg) =
      { state := s, outcome := .startFailAlready, actions := [] } := by
  simp [step, startStep, h]

/-- Witness for C2 at a concrete running state. -/
theorem start_while_running_rejected_witness :
    step { running := true, port := 8317, hasProcess := true, lastError := ""
           logs := [] } (.start 3 true true true "boom") =
      { state := { running := true, port := 8317, hasProcess := true
                   lastError := "", logs := [] }
        outcome := .startFailAlready, actions := [] } :=
  start_while_running_rejected
    { running := true, port := 8317, hasProcess := true, lastError := ""
      logs := [] } 3 true true true "boom" rfl

/-- C3: Stop on a non-running manager fails with NotRunning and delivers no
signal to any process, leaving the state unchanged. -/
theorem stop_while_not_running_rejected (s : MState) (t : Nat)
    (graceful : Bool) (orphans : List Nat) (h : s.running = false) :
    step s (.stop t graceful orphans) =
      { state := s, outcome := .stopFailNotRunning, actions := [] } := by
  simp [step, stopStep, h]

/-- Witness for C3 at a concrete stopped state. -/
theorem stop_while_not_running_rejected_witness :
    step { running := false, port := 8317, hasProcess := false
           lastError := "", logs := [] } (.stop 7 true [41, 42]) =
      { state := { running := false, port := 8317, hasProcess := false
                   lastError := "", logs := [] }
        outcome := .stopFailNotRunning, actions := [] } :=
  stop_while_not_running_rejected
    { running := false, port := 8317, hasProcess := false, lastError := ""
      logs := [] } 7 true [41, 42] rfl

/-! ## Lemmas about the bounded log sink -/

/-- Generalised shape of repeated AddLog: starting from any in-capacity log
list, folding a batch of appends keeps exactly the last maxLogEntries
entries of the concatenation. -/
theorem foldl_addLog_eq_drop (es : List LogEntry) : ∀ logs : List LogEntry,
    logs.length ≤ maxLogEntries →
    es.foldl addLog logs =
      (logs ++ es).drop (logs.length + es.length - maxLogEntries) := by
  induction es with
  | nil =>
      intro logs h
      simp [Nat.sub_eq_zero_of_le h]
  | cons e rest ih =>
      intro logs h
      simp only [List.foldl_cons]
      by_cases hlen : logs.length + 1 > maxLogEntries
      · have hfull : logs.length = maxLogEntries := by omega
        have hstep : addLog logs e = (logs ++ [e]).drop 1 := by
          simp [addLog, hfull]
        have hlen2 : ((logs ++ [e]).drop 1).length = maxLogEntries := by
          simp [hfull]
        rw [hstep, ih ((logs ++ [e]).drop 1) (le_of_eq hlen2)]
        rw [hlen2]
        have h1 : (1 : Nat) ≤ (logs ++ [e]).length := by simp
        rw [← List.drop_append_of_le_length h1]
        rw [List.drop_drop]
        have hx : logs ++ [e] ++ rest = logs ++ e :: rest := by simp
        rw [hx]
        have hidx : 1 + (maxLogEntries + rest.length - maxLogEntries) =
            logs.length + (e :: rest).length - maxLogEntries := by
          simp only [List.length_cons]
          omega
        rw [hidx]
      · have hc : ¬(logs ++ [e]).length > maxLogEntries := by
          simp only [List.length_append, List.length_singleton]
          omega
        have hstep : addLog logs e = logs ++ [e] := by
          simp only [addLog]
          rw [if_neg hc]
        have hle : (logs ++ [e]).length ≤ maxLogEntries := by
          simp only [List.length_append, List.length_singleton]
          omega
        rw [hstep, ih (logs ++ [e]) hle]
        simp only [List.append_assoc, List.singleton_append,
          List.length_append, List.length_singleton, List.length_cons,
          List.length_nil, Nat.zero_add]
        have hidx : logs.length + 1 + rest.length =
            logs.length + (rest.length + 1) := by
          omega
        rw [hidx]

/-- Sequence number tag used to name the concrete log entries of the
1001-append scenario. -/
def numberedEntry (k : Nat) : LogEntry := ⟨k, .info, "entry"⟩

/-- C4: the log ring never exceeds 1000 entries, eviction is exactly
keep-the-last-1000 (FIFO, order preserved), and in the concrete 1001-append
scenario entry #1 is gone while entries #2..#1001 remain in order. -/
theorem log_ring_bounded_fifo :
    (∀ es : List LogEntry, (es.foldl addLog []).length ≤ maxLogEntries) ∧
    (∀ es : List LogEntry,
      es.foldl addLog [] = es.drop (es.length - maxLogEntries)) ∧
    (((List.range' 1 1001).map numberedEntry).foldl addLog [] =
      (List.range' 2 1000).map numberedEntry) ∧
    numberedEntry 1 ∉ (List.range' 2 1000).map numberedEntry := by
  have hdrop : ∀ es : List LogEntry,
      es.foldl addLog [] = es.drop (es.length - maxLogEntries) := by
    intro es
    have := foldl_addLog_eq_drop es [] (by simp [maxLogEntries])
    simpa using this
  refine ⟨?_, hdrop, ?_, ?_⟩
  · intro es
    rw [hdrop es]
    simp only [List.length_drop]
    omega
  · rw [hdrop]
    have hlen : ((List.range' 1 1001).map numberedEntry).length = 1001 := by
      simp
    rw [hlen]
    have hrange : List.range' 1 1001 = 1 :: List.range' 2 1000 := rfl
    rw [hrange]
    simp [maxLogEntries]
  · intro hmem
    simp only [List.mem_map, List.mem_range'_1] at hmem
    obtain ⟨k, ⟨hk2, _⟩, hk⟩ := hmem
    have : k = 1 := by
      have := congrArg LogEntry.timestamp hk
      simpa [numberedEntry] using this
    omega

/-! ## Theorems about the telemetry fetchers -/

/-- C5: while running, a usage fetch that hits a network failure (transport
error or any non-200 status) keeps every prior numeric field of the cached
snapshot and refreshes only its timestamp; the rest of the manager state is
untouched and no error is returned. -/
theorem fetchUsageStats_network_failure_frame (st : TState)
    (resp : HttpResult UsageStats) (t : Nat) (hr : st.running = true)
    (hf : resp = .transportError ∨
      ∃ status body, resp = .response status body ∧ status ≠ 200) :
    fetchUsageStats st resp t =
      ({ st with usageStats := { st.usageStats with lastUpdated := t } },
       .ok ()) := by
  rcases hf with hf | ⟨status, body, hf, hs⟩
  · subst hf
    simp [fetchUsageStats, hr]
  · subst hf
    simp [fetchUsageStats, hr, hs]

/-- Witness for C5: a concrete running manager, a 503 response, numeric
fields 7/6/1/99 and rate 5 survive with only the timestamp moved to 42. -/
theorem fetchUsageStats_network_failure_frame_witness :
    fetchUsageStats { running := true, authFiles := []
                      usageStats := ⟨7, 6, 1, 99, 5, 3⟩, logs := [] }
        (.response 503 .readError) 42 =
      ({ running := true, authFiles := []
         usageStats := ⟨7, 6, 1, 99, 5, 42⟩, logs := [] }, .ok ()) :=
  fetchUsageStats_network_failure_frame
    { running := true, authFiles := [], usageStats := ⟨7, 6, 1, 99, 5, 3⟩
      logs := [] }
    (.response 503 .readError) 42 rfl
    (Or.inr ⟨503, .readError, rfl, by decide⟩)

/-- C10: when not running, the usage fetch replaces the cached snapshot by
an all-zero snapshot with a fresh timestamp, whatever numbers were cached
before and whatever the (never issued) response would have been. -/
theorem fetchUsageStats_not_running_zeroes (files : List AuthFile)
    (u : UsageStats) (logs : List LogEntry) (resp : HttpResult UsageStats)
    (t : Nat) :
    fetchUsageStats
        { running := false, authFiles := files, usageStats := u
          logs := logs } resp t =
      ({ running := false, authFiles := files
         usageStats :=
           { totalRequests := 0, successRequests := 0, failedRequests := 0
             totalTokens := 0, successRate := 0, lastUpdated := t }
         logs := logs }, .ok ()) := by
  simp [fetchUsageStats]

/-- Counterexample for C6: the fetch operation can return a hard error to
its caller: a running manager receiving a 200 response whose body fails to
unmarshal gets that error back, so the never-errors conjunct of the claim is
false. -/
theorem fetchAuthFiles_hard_error_exists :
    (fetchAuthFiles { running := true, authFiles := [], usageStats := {}
                      logs := [] } [] (.response 200 .parseError) 0).2 =
      .error .unmarshalFailed := rfl

/-- C6 as amended: while running, any transport error or non-200 response
makes the accounts fetch fall back to the directory scan and return no
error; only a 200 response whose body fails to read or to unmarshal is
returned to the caller as a hard error (with the cached accounts
unchanged). -/
theorem fetchAuthFiles_fallback_behaviour (st : TState)
    (dir : List DirEntry) (t : Nat) (hr : st.running = true) :
    (fetchAuthFiles st dir .transportError t =
      ({ st with authFiles := scanAuthDirectory dir }, .ok ())) ∧
    (∀ status : Nat, ∀ body : BodyResult (List AuthFile), status ≠ 200 →
      fetchAuthFiles st dir (.response status body) t =
        ({ st with authFiles := scanAuthDirectory dir }, .ok ())) ∧
    (fetchAuthFiles st dir (.response 200 .readError) t =
      (st, .error .readBodyFailed)) ∧
    (fetchAuthFiles st dir (.response 200 .parseError) t =
      (st, .error .unmarshalFailed)) := by
  refine ⟨?_, ?_, ?_, ?_⟩
  · simp [fetchAuthFiles, hr]
  · intro status body hs
    simp [fetchAuthFiles, hr, hs]
  · simp [fetchAuthFiles, hr]
  · simp [fetchAuthFiles, hr]

/-- Witness for the amended C6 at a concrete running state and directory. -/
theorem fetchAuthFiles_fallback_behaviour_witness :
    fetchAuthFiles { running := true, authFiles := [], usageStats := {}
                     logs := [] } [⟨"claude-dev@x.com.json", false, true⟩]
        (.response 502 (.ok [])) 9 =
      ({ running := true
         authFiles :=
           [{ id := "claude-dev@x.com.json", name := "dev@x.com"
              provider := .claude, status := "active"
              email := "dev@x.com" }]
         usageStats := {}, logs := [] }, .ok ()) := by
  have h := (fetchAuthFiles_fallback_behaviour
    { running := true, authFiles := [], usageStats := {}, logs := [] }
    [⟨"claude-dev@x.com.json", false, true⟩] 9 rfl).2.1 502 (.ok [])
    (by decide)
  rw [h]
  rfl

/-- C9: with an auth directory holding exactly claude-dev@x.com.json, the
accounts fetch on a not-running manager (whatever was cached and whatever
the never-issued response would have been) yields exactly one record with
provider claude, email dev@x.com, status active; the directory scan and the
filename parser behave accordingly, and an unknown prefix falls back to the
first provider (gemini). -/
theorem fetchAuthFiles_not_running_scan (files : List AuthFile)
    (u : UsageStats) (logs : List LogEntry)
    (resp : HttpResult (List AuthFile)) (t : Nat) :
    (fetchAuthFiles
        { running := false, authFiles := files, usageStats := u
          logs := logs } [⟨"claude-dev@x.com.json", false, true⟩] resp t =
      ({ running := false
         authFiles :=
           [{ id := "claude-dev@x.com.json", name := "dev@x.com"
              provider := .claude, status := "active"
              email := "dev@x.com" }]
         usageStats := u, logs := logs }, .ok ())) ∧
    (scanAuthDirectory [⟨"claude-dev@x.com.json", false, true⟩] =
      [{ id := "claude-dev@x.com.json", name := "dev@x.com"
         provider := .claude, status := "active", email := "dev@x.com" }]) ∧
    (parseAuthFileName "claude-dev@x.com.json" = (.claude, "dev@x.com")) ∧
    (parseAuthFileName "mystery-a@b.json" = (.gemini, "mystery-a@b")) := by
  refine ⟨?_, by decide, by decide, by decide⟩
  simp only [fetchAuthFiles, Bool.not_false, if_pos]
  rfl

/-! ## Theorems about the installer -/

/-- Counterexample for C7: DownloadAndInstallBinary itself checks no flag —
invoked on a state whose isDownloading flag is already true, it still runs a
full install (release fetch, download, extraction) to success. -/
theorem install_runs_despite_installing_flag :
    ((downloadAndInstallBinary "linux" "amd64"
        { isDownloading := true, downloadProgress := 0, lastError := ""
          logs := [] }
        { releaseResp := .ok ⟨"v1", [⟨"app_linux_amd64.tar.gz", "u"⟩]⟩
          downloadResp := .ok (), extractResp := .ok () } 0).actions =
      [.fetchRelease, .download "u", .extract "app_linux_amd64.tar.gz"]) ∧
    ((downloadAndInstallBinary "linux" "amd64"
        { isDownloading := true, downloadProgress := 0, lastError := ""
          logs := [] }
        { releaseResp := .ok ⟨"v1", [⟨"app_linux_amd64.tar.gz", "u"⟩]⟩
          downloadResp := .ok (), extractResp := .ok () } 0).result =
      .ok ()) := by
  constructor <;> rfl

/-- C7 as amended: single-flight is enforced at the call site, not inside
the install operation: the main.go install key handler, seeing
isDownloading already true, only logs a notice and performs no install
action, leaving the rest of the state unchanged. -/
theorem install_single_flight_at_call_site (goos goarch : String)
    (s : IState) (env : InstallEnv) (t : Nat)
    (h : s.isDownloading = true) :
    installKeyHandler false goos goarch s env t =
      ({ s with
         logs := addLog s.logs ⟨t, .info, "Download already in progress..."⟩ },
       []) := by
  simp [installKeyHandler, h]

/-- Witness for the amended C7 at a concrete in-flight state. -/
theorem install_single_flight_at_call_site_witness :
    installKeyHandler false "linux" "amd64"
        { isDownloading := true, downloadProgress := 0, lastError := ""
          logs := [] }
        { releaseResp := .ok ⟨"v1", [⟨"app_linux_amd64.tar.gz", "u"⟩]⟩
          downloadResp := .ok (), extractResp := .ok () } 4 =
      ({ isDownloading := true, downloadProgress := 0, lastError := ""
         logs := addLog [] ⟨4, .info, "Download already in progress..."⟩ },
       []) :=
  install_single_flight_at_call_site "linux" "amd64"
    { isDownloading := true, downloadProgress := 0, lastError := ""
      logs := [] }
    { releaseResp := .ok ⟨"v1", [⟨"app_linux_amd64.tar.gz", "u"⟩]⟩
      downloadResp := .ok (), extractResp := .ok () } 4 rfl

/-- C8: for target linux_amd64 the windows zip is rejected even though it
is listed first and the linux tar.gz is taken; matching is on the
lower-cased name; checksum-style assets are excluded; the loop is
first-match-wins (it equals List.find? of the acceptance predicate); and
when nothing matches, DownloadAndInstallBinary fails with
NoCompatibleAsset. -/
theorem asset_selection_correct :
    (findCompatibleAsset "linux" "amd64"
        ⟨"v1", [⟨"app_windows_amd64.zip", "u1"⟩,
                ⟨"app_linux_amd64.tar.gz", "u2"⟩]⟩ =
      some ⟨"app_linux_amd64.tar.gz", "u2"⟩) ∧
    (findCompatibleAsset "linux" "amd64"
        ⟨"v1", [⟨"APP_LINUX_AMD64.TAR.GZ", "u3"⟩]⟩ =
      some ⟨"APP_LINUX_AMD64.TAR.GZ", "u3"⟩) ∧
    (findCompatibleAsset "linux" "amd64"
        ⟨"v1", [⟨"app_linux_amd64.tar.gz.sha256", "u4"⟩,
                ⟨"checksums.txt", "u5"⟩]⟩ = none) ∧
    (∀ (skips : List String) (target : String) (assets : List AssetInfo),
      findAssetLoop skips target assets =
        assets.find? (acceptsAsset skips target)) ∧
    (∀ (goos goarch : String) (s : IState) (env : InstallEnv)
        (rel : ReleaseInfo) (t : Nat),
      env.releaseResp = .ok rel →
      findCompatibleAsset goos goarch rel = none →
      (downloadAndInstallBinary goos goarch s env t).result =
        .error (.noCompatibleAsset goos goarch)) := by
  refine ⟨by decide, by decide, by decide, ?_, ?_⟩
  · intro skips target assets
    induction assets with
    | nil => rfl
    | cons a rest ih =>
        by_cases h1 : shouldSkipAsset skips target (goToLower a.name) = true
        · simp [findAssetLoop, List.find?_cons, acceptsAsset, h1, ih]
        · by_cases h2 : goContains (goToLower a.name) target = true
          · simp [findAssetLoop, List.find?_cons, acceptsAsset, h1, h2]
          · simp [findAssetLoop, List.find?_cons, acceptsAsset, h1, h2, ih]
  · intro goos goarch s env rel t h1 h2
    simp [downloadAndInstallBinary, h1, h2]

/-- Witness for C8 with an asset list holding nothing compatible with a
fictional platform. -/
theorem asset_selection_correct_witness :
    (downloadAndInstallBinary "plan9" "mips"
        { isDownloading := false, downloadProgress := 0, lastError := ""
          logs := [] }
        { releaseResp := .ok ⟨"v1", []⟩, downloadResp := .ok ()
          extractResp := .ok () } 0).result =
      .error (.noCompatibleAsset "plan9" "mips") :=
  asset_selection_correct.2.2.2.2 "plan9" "mips"
    { isDownloading := false, downloadProgress := 0, lastError := ""
      logs := [] }
    { releaseResp := .ok ⟨"v1", []⟩, downloadResp := .ok ()
      extractResp := .ok () } ⟨"v1", []⟩ 0 rfl rfl

end LazyL2M
